import Mathlib

/-!
Verification of the SOSA funding-lifecycle core (shallow embedding).

The embedding covers the three source components:
* `InvestorView.tsx` — `fetchIdeas` (idea feed with read-time expiry
  reconciliation) and `handleInvest` (the investment-commit protocol);
* `PostIdea.tsx` — `handleSubmit` (idea creation);
* the record store (supabase) is modelled as a pure `DB` value with the
  `insert` / ordered `query` / `update … eq id` operations the code uses.

JavaScript numbers are modelled by `JsNum`: either `nan` (the result of
`parseFloat` on a non-numeric string) or a finite value as a rational.
JS comparisons involving NaN are `false` and arithmetic involving NaN is NaN.
`±Infinity` inputs are rejected by the amount guards (`Infinity >
money_needed`) before reaching any arithmetic, so they are not represented.
Timestamps (ISO strings in the source) are epoch milliseconds (`Int`);
`Date` comparison in JS coerces to epoch milliseconds, which this matches.
-/

namespace SOSA

/-- A JavaScript number reaching the invest flow: NaN or a finite rational. -/
inductive JsNum where
  | nan : JsNum
  | num : ℚ → JsNum
deriving DecidableEq

/-- JS `<=`: false whenever either side is NaN. -/
def jsLe : JsNum → JsNum → Bool
  | .num a, .num b => decide (a ≤ b)
  | _, _ => false

/-- JS `>`: false whenever either side is NaN. -/
def jsGt : JsNum → JsNum → Bool
  | .num a, .num b => decide (b < a)
  | _, _ => false

/-- JS `>=`: false whenever either side is NaN. -/
def jsGe : JsNum → JsNum → Bool
  | .num a, .num b => decide (b ≤ a)
  | _, _ => false

/-- JS `+`: NaN-absorbing. -/
def jsAdd : JsNum → JsNum → JsNum
  | .num a, .num b => .num (a + b)
  | _, _ => .nan

/-- JS `*`: NaN-absorbing. -/
def jsMul : JsNum → JsNum → JsNum
  | .num a, .num b => .num (a * b)
  | _, _ => .nan

/-- JS `/`: NaN-absorbing.  `handleInvest` only divides by `money_needed`
after the amount guards have passed, which forces `money_needed > 0`, so the
division-by-zero behaviour of JS (Infinity) is never reached. -/
def jsDiv : JsNum → JsNum → JsNum
  | .num a, .num b => .num (a / b)
  | _, _ => .nan

/-- JS `Math.floor`: NaN maps to NaN. -/
def jsFloor : JsNum → JsNum
  | .num a => .num ⌊a⌋
  | .nan => .nan

/-- The numeric value of a `JsNum` (0 for NaN; only used under
all-numeric hypotheses). -/
def ratAmount : JsNum → ℚ
  | .nan => 0
  | .num q => q

/-- Idea status enum `'open' | 'funded' | 'expired'`. -/
inductive Status where
  | open' : Status
  | funded : Status
  | expired : Status
deriving DecidableEq

/-- Row of the `startup_ideas` collection (interface `StartupIdea`). -/
structure Idea where
  id : Nat
  wallet_address : String
  title : String
  description : String
  image_url : Option String
  money_needed : ℚ
  share_offered : String
  end_date : Int
  status : Status
  created_at : Int
deriving DecidableEq

/-- Row of the `investments` collection, as inserted by `handleInvest`. -/
structure Investment where
  idea_id : Nat
  investor_address : String
  amount : JsNum
  share_percentage : JsNum
  transaction_id : Nat
  invested_at : Int
deriving DecidableEq

/-- The record store: the two persisted collections. -/
structure DB where
  ideas : List Idea
  investments : List Investment
deriving DecidableEq

/-- `supabase.from('startup_ideas').update(\x7b status \x7d).eq('id', ideaId)`. -/
def updateIdeaStatus (db : DB) (ideaId : Nat) (st : Status) : DB :=
  { db with ideas := db.ideas.map fun i => if i.id = ideaId then { i with status := st } else i }

/-- `supabase.from('investments').select('amount').eq('idea_id', ideaId)`. -/
def investmentsFor (db : DB) (ideaId : Nat) : List Investment :=
  db.investments.filter fun inv => inv.idea_id = ideaId

/-- `allInvestments.reduce((sum, inv) => sum + inv.amount, 0)` — JS addition
folded over the amounts of the idea's investments. -/
def totalFor (db : DB) (ideaId : Nat) : JsNum :=
  ((investmentsFor db ideaId).map (fun inv => inv.amount)).foldl jsAdd (JsNum.num 0)

/-- The numeric total invested for an idea (see `totalFor`). -/
def ratTotalFor (db : DB) (ideaId : Nat) : ℚ :=
  ((investmentsFor db ideaId).map (fun inv => ratAmount inv.amount)).sum

/-- Order used by the feed query `.order('created_at', ascending: false)`:
`a` before `b` when `a.created_at ≥ b.created_at`. -/
def createdDesc (a b : Idea) : Prop := b.created_at ≤ a.created_at

instance : DecidableRel createdDesc :=
  fun a b => inferInstanceAs (Decidable (b.created_at ≤ a.created_at))

instance : IsTotal Idea createdDesc :=
  ⟨fun a b => (Int.le_total b.created_at a.created_at)⟩

instance : IsTrans Idea createdDesc :=
  ⟨fun _ _ _ h1 h2 => le_trans h2 h1⟩

/-- The feed's store query: all ideas ordered by `created_at` descending. -/
def queryIdeasOrdered (db : DB) : List Idea :=
  db.ideas.insertionSort createdDesc

/-- Condition of the read-time expiry reconciliation in `fetchIdeas`:
`idea.status === 'open' && now > endDate`. -/
def pastDeadline (now : Int) (i : Idea) : Prop :=
  i.status = Status.open' ∧ i.end_date < now

instance (now : Int) (i : Idea) : Decidable (pastDeadline now i) :=
  inferInstanceAs (Decidable (i.status = Status.open' ∧ i.end_date < now))

/-- The per-idea map step of `fetchIdeas`: an `open` idea past its deadline is
returned as `expired`, every other idea is returned unchanged. -/
def reconcileExpiry (now : Int) (i : Idea) : Idea :=
  if pastDeadline now i then { i with status := Status.expired } else i

/-- The per-idea store write of `fetchIdeas`: for an `open` idea past its
deadline, write `status = 'expired'` through to the store. -/
def expireStep (now : Int) (d : DB) (i : Idea) : DB :=
  if pastDeadline now i then updateIdeaStatus d i.id Status.expired else d

/-- `fetchIdeas`: query all ideas ordered by `created_at` descending; for each
idea still `open` whose `end_date` has passed, write the `open → expired`
transition through to the store and return the idea as `expired`.  Result:
(store after the write-throughs, list handed to `setIdeas`). -/
def fetchIdeas (db : DB) (now : Int) : DB × List Idea :=
  let sorted := queryIdeasOrdered db
  (sorted.foldl (expireStep now) db, sorted.map (reconcileExpiry now))

/-- Outcome of the external ledger interaction of one investment — parameter
fetch, transaction build, signing, submission and the bounded
`waitForConfirmation`.  Signing refusal, submission failure and confirmation
timeout all throw, collapsing to `failure`. -/
inductive LedgerOutcome where
  | success : Nat → LedgerOutcome
  | failure : LedgerOutcome
deriving DecidableEq

/-- How one `handleInvest` call ended, as reported to the user. -/
inductive InvestOutcome where
  | rejectedInvalidAmount : InvestOutcome
  | rejectedExceedsNeeded : InvestOutcome
  | transactionFailed : InvestOutcome
  | persistenceFailed : InvestOutcome
  | success : JsNum → InvestOutcome
deriving DecidableEq

/-- Observable result of one `handleInvest` call: the store afterwards,
whether the ledger interaction was started, the `amount` field passed to
`makePaymentTxnWithSuggestedParamsFromObject` (micro-units), and the outcome
(`success` carries the `sharePercentage` shown to the user). -/
structure InvestResult where
  newDb : DB
  ledgerCalled : Bool
  ledgerAmount : Option JsNum
  outcome : InvestOutcome
deriving DecidableEq

/-- `Math.floor(amount * 1_000_000)` — display units to ledger micro-units. -/
def microUnits (a : JsNum) : JsNum :=
  jsFloor (jsMul a (JsNum.num 1000000))

/-- `handleInvest` (InvestorView.tsx lines 86–184), the investment-commit
protocol.  `amount` is the `parseFloat` result of the text field (NaN when the
field does not parse).  `ledger` is the outcome of the external ledger
interaction and `insertOk` whether the subsequent `investments` insert
succeeded.  The source never reads `idea.status` here.  The trailing feed
refresh on the success path is the separately modelled `fetchIdeas`. -/
def handleInvest (walletAddress : String) (idea : Idea) (amount : JsNum)
    (db : DB) (ledger : LedgerOutcome) (insertOk : Bool) (now : Int) : InvestResult :=
  if jsLe amount (JsNum.num 0) then
    ⟨db, false, none, InvestOutcome.rejectedInvalidAmount⟩
  else if jsGt amount (JsNum.num idea.money_needed) then
    ⟨db, false, none, InvestOutcome.rejectedExceedsNeeded⟩
  else
    let amountInMicroUnits := microUnits amount
    match ledger with
    | .failure => ⟨db, true, some amountInMicroUnits, InvestOutcome.transactionFailed⟩
    | .success txid =>
      let sharePercentage := jsMul (jsDiv amount (JsNum.num idea.money_needed)) (JsNum.num 100)
      if insertOk then
        let record : Investment :=
          { idea_id := idea.id, investor_address := walletAddress, amount := amount,
            share_percentage := sharePercentage, transaction_id := txid, invested_at := now }
        let db1 : DB := { db with investments := db.investments ++ [record] }
        let totalInvested := totalFor db1 idea.id
        let db2 := if jsGe totalInvested (JsNum.num idea.money_needed)
                   then updateIdeaStatus db1 idea.id Status.funded else db1
        ⟨db2, true, some amountInMicroUnits, InvestOutcome.success sharePercentage⟩
      else
        ⟨db, true, some amountInMicroUnits, InvestOutcome.persistenceFailed⟩

/-- Milliseconds in one day; `setDate(getDate() + d)` is modelled as adding
`d` fixed-length days (calendar/DST irregularities are outside the model). -/
def dayMs : Int := 86400000

/-- The idea row inserted by `handleSubmit` (PostIdea.tsx lines 33–77).
`t1` is the `new Date()` from which `endDate` is computed via
`setDate(getDate() + durationDays)`; `t2` is the separate, possibly later
`new Date()` whose ISO string becomes `created_at`.  `moneyNeeded` and
`durationDays` are the already-parsed form fields. -/
def submittedIdea (walletAddress title description : String) (imageUrl : Option String)
    (moneyNeeded : ℚ) (shareOffered : String) (durationDays : Nat) (t1 t2 : Int)
    (storeId : Nat) : Idea :=
  { id := storeId, wallet_address := walletAddress, title := title,
    description := description, image_url := imageUrl, money_needed := moneyNeeded,
    share_offered := shareOffered, end_date := t1 + durationDays * dayMs,
    status := Status.open', created_at := t2 }

/-- A concrete idea row used to evaluate the operations on specific inputs. -/
def mkIdea (anId : Nat) (needed : ℚ) (endDate : Int) (st : Status) (created : Int) : Idea :=
  { id := anId, wallet_address := "addr", title := "t", description := "d",
    image_url := none, money_needed := needed, share_offered := "1%",
    end_date := endDate, status := st, created_at := created }

/-! Small computation lemmas about the JS number operations. -/

@[simp] lemma jsLe_num (a b : ℚ) : jsLe (JsNum.num a) (JsNum.num b) = decide (a ≤ b) := rfl

@[simp] lemma jsGt_num (a b : ℚ) : jsGt (JsNum.num a) (JsNum.num b) = decide (b < a) := rfl

@[simp] lemma jsGe_num (a b : ℚ) : jsGe (JsNum.num a) (JsNum.num b) = decide (b ≤ a) := rfl

@[simp] lemma jsLe_nan (b : JsNum) : jsLe JsNum.nan b = false := by cases b <;> rfl

@[simp] lemma jsGt_nan (b : JsNum) : jsGt JsNum.nan b = false := by cases b <;> rfl

@[simp] lemma jsAdd_num (a b : ℚ) : jsAdd (JsNum.num a) (JsNum.num b) = JsNum.num (a + b) := rfl

@[simp] lemma jsMul_num (a b : ℚ) : jsMul (JsNum.num a) (JsNum.num b) = JsNum.num (a * b) := rfl

@[simp] lemma microUnits_nan : microUnits JsNum.nan = JsNum.nan := rfl

@[simp] lemma microUnits_num (a : ℚ) : microUnits (JsNum.num a) = JsNum.num ⌊a * 1000000⌋ := rfl

/-- Claim C1 (code bug): `handleInvest` never reads `idea.status`, so a call
on a `funded` idea with a well-formed amount is not rejected — the ledger
interaction is started (an on-chain transfer is attempted) and the call runs
to completion; no `IdeaNotOpen` rejection exists in the code. -/
theorem invest_not_rejected_for_closed_idea :
    (mkIdea 1 100 1000 Status.funded 0).status = Status.funded ∧
    (handleInvest "inv" (mkIdea 1 100 1000 Status.funded 0) (JsNum.num 5)
        ⟨[mkIdea 1 100 1000 Status.funded 0], []⟩ (LedgerOutcome.success 7) true 0).ledgerCalled
      = true ∧
    (handleInvest "inv" (mkIdea 1 100 1000 Status.funded 0) (JsNum.num 5)
        ⟨[mkIdea 1 100 1000 Status.funded 0], []⟩ (LedgerOutcome.success 7) true 0).outcome
      = InvestOutcome.success (JsNum.num 5) := by
  refine ⟨rfl, rfl, ?_⟩
  show InvestOutcome.success (JsNum.num (5 / 100 * 100)) = InvestOutcome.success (JsNum.num 5)
  norm_num

/-- Claim C2 (code bug): the `funded` write of `handleInvest` is not guarded
by the stored status, so a commit against an idea whose stored status is
`expired` writes `funded` over it — an `expired → funded` transition. -/
theorem invest_writes_funded_over_expired :
    (mkIdea 1 10 1000 Status.expired 0).status = Status.expired ∧
    ((handleInvest "inv" (mkIdea 1 10 1000 Status.expired 0) (JsNum.num 10)
        ⟨[mkIdea 1 10 1000 Status.expired 0], []⟩ (LedgerOutcome.success 7) true 0).newDb.ideas.map
        (fun i => i.status)) = [Status.funded] := by
  refine ⟨rfl, ?_⟩
  norm_num [handleInvest, mkIdea, totalFor, investmentsFor, updateIdeaStatus,
    List.filter, jsDiv]

/-- Claim C3: when the ledger interaction fails (signing refusal, submission
failure or confirmation timeout all throw before the insert), `handleInvest`
leaves the store exactly as it was: no Investment row, no status change. -/
theorem ledger_failure_leaves_store_unchanged (w : String) (idea : Idea) (amount : JsNum)
    (db : DB) (insertOk : Bool) (now : Int) :
    (handleInvest w idea amount db LedgerOutcome.failure insertOk now).newDb = db := by
  unfold handleInvest
  split
  · rfl
  · split
    · rfl
    · rfl

/-- Claim C5: a numeric amount that is ≤ 0 or exceeds `money_needed` is
rejected up front — no ledger interaction is started, no amount is handed to
the payment builder, and the store is untouched. -/
theorem invalid_amount_rejected_before_ledger (w : String) (idea : Idea) (q : ℚ)
    (db : DB) (ledger : LedgerOutcome) (insertOk : Bool) (now : Int)
    (h : q ≤ 0 ∨ idea.money_needed < q) :
    (handleInvest w idea (JsNum.num q) db ledger insertOk now).ledgerCalled = false ∧
    (handleInvest w idea (JsNum.num q) db ledger insertOk now).ledgerAmount = none ∧
    (handleInvest w idea (JsNum.num q) db ledger insertOk now).newDb = db := by
  unfold handleInvest
  rcases h with h | h
  · simp [h]
  · by_cases h0 : q ≤ 0
    · simp [h0]
    · simp [h0, h]

theorem invalid_amount_rejected_before_ledger_witness :
    (((3 : ℚ) ≤ 0 ∨ (mkIdea 1 2 1000 Status.open' 0).money_needed < 3) ∧
      (handleInvest "inv" (mkIdea 1 2 1000 Status.open' 0) (JsNum.num 3)
          ⟨[mkIdea 1 2 1000 Status.open' 0], []⟩ (LedgerOutcome.success 7) true 0).ledgerCalled
        = false ∧
      (handleInvest "inv" (mkIdea 1 2 1000 Status.open' 0) (JsNum.num 3)
          ⟨[mkIdea 1 2 1000 Status.open' 0], []⟩ (LedgerOutcome.success 7) true 0).ledgerAmount
        = none ∧
      (handleInvest "inv" (mkIdea 1 2 1000 Status.open' 0) (JsNum.num 3)
          ⟨[mkIdea 1 2 1000 Status.open' 0], []⟩ (LedgerOutcome.success 7) true 0).newDb
        = ⟨[mkIdea 1 2 1000 Status.open' 0], []⟩) :=
  ⟨Or.inr (by norm_num [mkIdea]),
   (invalid_amount_rejected_before_ledger "inv" (mkIdea 1 2 1000 Status.open' 0) 3
      ⟨[mkIdea 1 2 1000 Status.open' 0], []⟩ (LedgerOutcome.success 7) true 0
      (Or.inr (by norm_num [mkIdea]))).1,
   (invalid_amount_rejected_before_ledger "inv" (mkIdea 1 2 1000 Status.open' 0) 3
      ⟨[mkIdea 1 2 1000 Status.open' 0], []⟩ (LedgerOutcome.success 7) true 0
      (Or.inr (by norm_num [mkIdea]))).2.1,
   (invalid_amount_rejected_before_ledger "inv" (mkIdea 1 2 1000 Status.open' 0) 3
      ⟨[mkIdea 1 2 1000 Status.open' 0], []⟩ (LedgerOutcome.success 7) true 0
      (Or.inr (by norm_num [mkIdea]))).2.2⟩

/-- Claim C10: when `parseFloat` yields NaN, both amount guards evaluate to
false (JS comparisons with NaN are false), so the request is not rejected and
the payment flow is invoked with a NaN amount (`Math.floor(NaN * 1e6)` is
NaN). -/
theorem nan_amount_bypasses_guards (w : String) (idea : Idea) (db : DB)
    (ledger : LedgerOutcome) (insertOk : Bool) (now : Int) :
    (handleInvest w idea JsNum.nan db ledger insertOk now).ledgerCalled = true ∧
    (handleInvest w idea JsNum.nan db ledger insertOk now).ledgerAmount = some JsNum.nan ∧
    (handleInvest w idea JsNum.nan db ledger insertOk now).outcome
      ≠ InvestOutcome.rejectedInvalidAmount ∧
    (handleInvest w idea JsNum.nan db ledger insertOk now).outcome
      ≠ InvestOutcome.rejectedExceedsNeeded := by
  unfold handleInvest
  cases ledger with
  | failure => simp
  | success txid => cases insertOk <;> simp

/-! Lemmas about the store writes performed by the feed refresh. -/

lemma updateIdeaStatus_sets (db : DB) (x : Nat) (st : Status) :
    ∀ j ∈ (updateIdeaStatus db x st).ideas, j.id = x → j.status = st := by
  intro j hj hid
  unfold updateIdeaStatus at hj
  simp only [List.mem_map] at hj
  obtain ⟨i, _, rfl⟩ := hj
  by_cases h : i.id = x
  · rw [if_pos h]
  · rw [if_neg h] at hid
    exact absurd hid h

lemma expired_stays (now : Int) (x : Nat) :
    ∀ (l : List Idea) (d : DB),
      (∀ j ∈ d.ideas, j.id = x → j.status = Status.expired) →
      ∀ j ∈ (l.foldl (expireStep now) d).ideas, j.id = x → j.status = Status.expired := by
  intro l
  induction l with
  | nil => intro d h; simpa using h
  | cons i t ih =>
    intro d h
    rw [List.foldl_cons]
    apply ih
    intro j hj hid
    unfold expireStep at hj
    by_cases hp : pastDeadline now i
    · rw [if_pos hp] at hj
      unfold updateIdeaStatus at hj
      simp only [List.mem_map] at hj
      obtain ⟨k, hk, rfl⟩ := hj
      by_cases hkx : k.id = i.id
      · rw [if_pos hkx]
      · rw [if_neg hkx] at hid ⊢
        exact h k hk hid
    · rw [if_neg hp] at hj
      exact h j hj hid

lemma foldl_expires (now : Int) (i : Idea) :
    ∀ (l : List Idea) (d : DB), i ∈ l → pastDeadline now i →
      ∀ j ∈ (l.foldl (expireStep now) d).ideas, j.id = i.id → j.status = Status.expired := by
  intro l
  induction l with
  | nil => intro d h; exact absurd h (List.not_mem_nil i)
  | cons a t ih =>
    intro d hmem hp
    rw [List.foldl_cons]
    rcases List.mem_cons.mp hmem with rfl | hmem'
    · apply expired_stays
      intro j hj hid
      unfold expireStep at hj
      rw [if_pos hp] at hj
      exact updateIdeaStatus_sets d i.id Status.expired j hj hid
    · exact ih (expireStep now d a) hmem' hp

lemma reconcileExpiry_created_at (now : Int) (i : Idea) :
    (reconcileExpiry now i).created_at = i.created_at := by
  unfold reconcileExpiry
  split <;> rfl

lemma fetchIdeas_result_sorted (db : DB) (now : Int) :
    List.Sorted createdDesc ((queryIdeasOrdered db).map (reconcileExpiry now)) := by
  have hs : List.Sorted createdDesc (queryIdeasOrdered db) :=
    List.sorted_insertionSort createdDesc db.ideas
  rw [List.Sorted, List.pairwise_map]
  refine hs.imp ?_
  intro a b h
  unfold createdDesc at h ⊢
  rw [reconcileExpiry_created_at, reconcileExpiry_created_at]
  exact h

/-- Claim C7: the feed refresh returns exactly the stored ideas (each passed
through the expiry reconciliation) ordered by `created_at` descending, and for
every stored idea that is `open` with `end_date` before `now`, the result
contains it as `expired` and the store write-through has set every row with
its id to `expired`. -/
theorem fetchIdeas_orders_and_expires (db : DB) (now : Int) :
    ((fetchIdeas db now).2).Perm (db.ideas.map (reconcileExpiry now)) ∧
    List.Sorted createdDesc (fetchIdeas db now).2 ∧
    ∀ i ∈ db.ideas, i.status = Status.open' → i.end_date < now →
      ({ i with status := Status.expired } ∈ (fetchIdeas db now).2 ∧
        ∀ j ∈ (fetchIdeas db now).1.ideas, j.id = i.id → j.status = Status.expired) := by
  have h2 : (fetchIdeas db now).2 = (queryIdeasOrdered db).map (reconcileExpiry now) := rfl
  have h1 : (fetchIdeas db now).1 = (queryIdeasOrdered db).foldl (expireStep now) db := rfl
  refine ⟨?_, ?_, ?_⟩
  · rw [h2]
    exact (List.perm_insertionSort createdDesc db.ideas).map _
  · rw [h2]
    exact fetchIdeas_result_sorted db now
  · intro i hi hst hend
    have hp : pastDeadline now i := ⟨hst, hend⟩
    have hmem : i ∈ queryIdeasOrdered db := by
      unfold queryIdeasOrdered
      rw [List.mem_insertionSort]
      exact hi
    constructor
    · rw [h2]
      have hrec : reconcileExpiry now i = { i with status := Status.expired } := by
        unfold reconcileExpiry
        rw [if_pos hp]
      rw [← hrec]
      exact List.mem_map_of_mem _ hmem
    · intro j hj hid
      rw [h1] at hj
      exact foldl_expires now i (queryIdeasOrdered db) db hmem hp j hj hid

theorem fetchIdeas_orders_and_expires_witness :
    ((mkIdea 1 100 (-5) Status.open' 0)
        ∈ (⟨[mkIdea 1 100 (-5) Status.open' 0], []⟩ : DB).ideas ∧
      (mkIdea 1 100 (-5) Status.open' 0).status = Status.open' ∧
      (mkIdea 1 100 (-5) Status.open' 0).end_date < 0) ∧
    ({ mkIdea 1 100 (-5) Status.open' 0 with status := Status.expired }
        ∈ (fetchIdeas ⟨[mkIdea 1 100 (-5) Status.open' 0], []⟩ 0).2 ∧
      ∀ j ∈ (fetchIdeas ⟨[mkIdea 1 100 (-5) Status.open' 0], []⟩ 0).1.ideas,
        j.id = (mkIdea 1 100 (-5) Status.open' 0).id → j.status = Status.expired) :=
  ⟨⟨List.mem_cons_self _ _, rfl, by decide⟩,
    (fetchIdeas_orders_and_expires ⟨[mkIdea 1 100 (-5) Status.open' 0], []⟩ 0).2.2
      (mkIdea 1 100 (-5) Status.open' 0) (List.mem_cons_self _ _) rfl (by decide)⟩


/-! Lemmas about the aggregate-funding recomputation. -/

@[simp] lemma jsDiv_num (a b : ℚ) : jsDiv (JsNum.num a) (JsNum.num b) = JsNum.num (a / b) := rfl

lemma foldl_jsAdd_eq (l : List JsNum) (a : ℚ)
    (hl : ∀ x ∈ l, ∃ r : ℚ, x = JsNum.num r) :
    l.foldl jsAdd (JsNum.num a) = JsNum.num (a + (l.map ratAmount).sum) := by
  induction l generalizing a with
  | nil => simp
  | cons x t ih =>
    obtain ⟨r, rfl⟩ := hl x (List.mem_cons_self x t)
    rw [List.foldl_cons, jsAdd_num, ih (a + r) (fun y hy => hl y (List.mem_cons_of_mem _ hy))]
    simp [ratAmount]
    ring

lemma investmentsFor_append_match (db : DB) (rec : Investment) (tid : Nat)
    (hid : rec.idea_id = tid) :
    investmentsFor { db with investments := db.investments ++ [rec] } tid
      = investmentsFor db tid ++ [rec] := by
  unfold investmentsFor
  rw [List.filter_append]
  simp [hid]

lemma totalFor_after_insert (db : DB) (rec : Investment) (tid : Nat) (q : ℚ)
    (hid : rec.idea_id = tid) (hq : rec.amount = JsNum.num q)
    (hnum : ∀ inv ∈ db.investments, ∃ r : ℚ, inv.amount = JsNum.num r) :
    totalFor { db with investments := db.investments ++ [rec] } tid
      = JsNum.num (ratTotalFor db tid + q) := by
  unfold totalFor
  rw [investmentsFor_append_match db rec tid hid]
  rw [foldl_jsAdd_eq]
  · unfold ratTotalFor
    simp [hq, ratAmount, Function.comp_def]
  · intro x hx
    obtain ⟨inv, hinv, rfl⟩ := List.mem_map.mp hx
    rcases List.mem_append.mp hinv with h | h
    · exact hnum inv (List.mem_of_mem_filter h)
    · rw [List.mem_singleton.mp h]
      exact ⟨q, hq⟩

/-- Claim C4: on the success path, `handleInvest` first appends the new
Investment row and then recomputes the idea's total from a fresh read of the
post-insert store (so the sum ranges over every stored row for the idea, the
new one included); the `funded` status write happens exactly when that fresh
total is ≥ `money_needed`. -/
theorem invest_recomputes_total_and_funds (w : String) (idea : Idea) (q : ℚ) (db : DB)
    (txid : Nat) (now : Int) (h0 : 0 < q) (h1 : q ≤ idea.money_needed)
    (hnum : ∀ inv ∈ db.investments, ∃ r : ℚ, inv.amount = JsNum.num r) :
    ∃ rec : Investment, rec.idea_id = idea.id ∧ rec.amount = JsNum.num q ∧
      (handleInvest w idea (JsNum.num q) db (LedgerOutcome.success txid) true now).newDb
        = (if idea.money_needed ≤ ratTotalFor db idea.id + q
           then updateIdeaStatus { db with investments := db.investments ++ [rec] }
                  idea.id Status.funded
           else { db with investments := db.investments ++ [rec] }) := by
  have hg1 : ¬ q ≤ 0 := not_le.mpr h0
  have hg2 : ¬ idea.money_needed < q := not_lt.mpr h1
  refine ⟨{ idea_id := idea.id, investor_address := w, amount := JsNum.num q,
            share_percentage := JsNum.num (q / idea.money_needed * 100),
            transaction_id := txid, invested_at := now }, rfl, rfl, ?_⟩
  have htot := totalFor_after_insert db
    { idea_id := idea.id, investor_address := w, amount := JsNum.num q,
      share_percentage := JsNum.num (q / idea.money_needed * 100),
      transaction_id := txid, invested_at := now } idea.id q rfl rfl hnum
  simp [handleInvest, decide_eq_false hg1, decide_eq_false hg2, htot]

theorem invest_recomputes_total_and_funds_witness :
    ((0 : ℚ) < 100 ∧ (100 : ℚ) ≤ (mkIdea 1 100 1000 Status.open' 0).money_needed ∧
      ∀ inv ∈ (⟨[mkIdea 1 100 1000 Status.open' 0], []⟩ : DB).investments,
        ∃ r : ℚ, inv.amount = JsNum.num r) ∧
    (∃ rec : Investment, rec.idea_id = (mkIdea 1 100 1000 Status.open' 0).id ∧
      rec.amount = JsNum.num 100 ∧
      (handleInvest "inv" (mkIdea 1 100 1000 Status.open' 0) (JsNum.num 100)
          ⟨[mkIdea 1 100 1000 Status.open' 0], []⟩ (LedgerOutcome.success 7) true 0).newDb
        = (if (mkIdea 1 100 1000 Status.open' 0).money_needed ≤
              ratTotalFor ⟨[mkIdea 1 100 1000 Status.open' 0], []⟩
                (mkIdea 1 100 1000 Status.open' 0).id + 100
           then updateIdeaStatus
                  { (⟨[mkIdea 1 100 1000 Status.open' 0], []⟩ : DB) with
                    investments :=
                      (⟨[mkIdea 1 100 1000 Status.open' 0], []⟩ : DB).investments ++ [rec] }
                  (mkIdea 1 100 1000 Status.open' 0).id Status.funded
           else { (⟨[mkIdea 1 100 1000 Status.open' 0], []⟩ : DB) with
                  investments :=
                    (⟨[mkIdea 1 100 1000 Status.open' 0], []⟩ : DB).investments ++ [rec] })) :=
  ⟨⟨by norm_num, by norm_num [mkIdea], by simp⟩,
    invest_recomputes_total_and_funds "inv" (mkIdea 1 100 1000 Status.open' 0) 100
      ⟨[mkIdea 1 100 1000 Status.open' 0], []⟩ 7 0 (by norm_num) (by norm_num [mkIdea])
      (by simp)⟩

lemma foldl_expireStep_investments (now : Int) (l : List Idea) :
    ∀ d : DB, (l.foldl (expireStep now) d).investments = d.investments := by
  induction l with
  | nil => intro d; rfl
  | cons i t ih =>
    intro d
    rw [List.foldl_cons, ih]
    unfold expireStep
    split <;> rfl

lemma fetchIdeas_keeps_investments (db : DB) (now : Int) :
    (fetchIdeas db now).1.investments = db.investments :=
  foldl_expireStep_investments now (queryIdeasOrdered db) db

/-- Claim C6: the Investment row stored by a successful commit carries
`share_percentage = amount / money_needed * 100`, computed once at commit
time; the success report hands the caller that very value; existing rows are
untouched by the commit; and the feed refresh never rewrites any investment
row, so the value is never recomputed afterward. -/
theorem share_percentage_fixed_at_commit (w : String) (idea : Idea) (q : ℚ) (db : DB)
    (txid : Nat) (now : Int) (h0 : 0 < q) (h1 : q ≤ idea.money_needed) :
    ∃ rec : Investment,
      (handleInvest w idea (JsNum.num q) db (LedgerOutcome.success txid) true now).newDb.investments
        = db.investments ++ [rec] ∧
      rec.share_percentage = JsNum.num (q / idea.money_needed * 100) ∧
      (handleInvest w idea (JsNum.num q) db (LedgerOutcome.success txid) true now).outcome
        = InvestOutcome.success rec.share_percentage ∧
      ∀ (db2 : DB) (now2 : Int), (fetchIdeas db2 now2).1.investments = db2.investments := by
  have hg1 : ¬ q ≤ 0 := not_le.mpr h0
  have hg2 : ¬ idea.money_needed < q := not_lt.mpr h1
  refine ⟨{ idea_id := idea.id, investor_address := w, amount := JsNum.num q,
            share_percentage := JsNum.num (q / idea.money_needed * 100),
            transaction_id := txid, invested_at := now }, ?_, rfl, ?_, ?_⟩
  · simp [handleInvest, decide_eq_false hg1, decide_eq_false hg2]
    split <;> simp [updateIdeaStatus]
  · simp [handleInvest, decide_eq_false hg1, decide_eq_false hg2]
  · intro db2 now2
    exact fetchIdeas_keeps_investments db2 now2

theorem share_percentage_fixed_at_commit_witness :
    ((0 : ℚ) < 5 ∧ (5 : ℚ) ≤ (mkIdea 1 100 1000 Status.open' 0).money_needed) ∧
    (∃ rec : Investment,
      (handleInvest "inv" (mkIdea 1 100 1000 Status.open' 0) (JsNum.num 5)
          ⟨[mkIdea 1 100 1000 Status.open' 0], []⟩
          (LedgerOutcome.success 7) true 0).newDb.investments
        = (⟨[mkIdea 1 100 1000 Status.open' 0], []⟩ : DB).investments ++ [rec] ∧
      rec.share_percentage
        = JsNum.num (5 / (mkIdea 1 100 1000 Status.open' 0).money_needed * 100) ∧
      (handleInvest "inv" (mkIdea 1 100 1000 Status.open' 0) (JsNum.num 5)
          ⟨[mkIdea 1 100 1000 Status.open' 0], []⟩
          (LedgerOutcome.success 7) true 0).outcome
        = InvestOutcome.success rec.share_percentage ∧
      ∀ (db2 : DB) (now2 : Int), (fetchIdeas db2 now2).1.investments = db2.investments) :=
  ⟨⟨by norm_num, by norm_num [mkIdea]⟩,
    share_percentage_fixed_at_commit "inv" (mkIdea 1 100 1000 Status.open' 0) 5
      ⟨[mkIdea 1 100 1000 Status.open' 0], []⟩ 7 0 (by norm_num) (by norm_num [mkIdea])⟩

/-- Claim C8 counterexample: `handleSubmit` computes `endDate` from one
`new Date()` reading and `created_at` from a second `new Date()` reading taken
when building the insert payload; when the second reading is 1 ms later, the
stored `end_date` differs from `created_at + d` days. -/
theorem end_date_not_exactly_created_plus_duration :
    ¬ ((submittedIdea "w" "t" "d" none 1 "s" 30 0 1 5).end_date
        = (submittedIdea "w" "t" "d" none 1 "s" 30 0 1 5).created_at + 30 * dayMs) := by
  decide

/-- Claim C8 amended: `end_date` equals the deadline-computation clock reading
plus exactly `d` days, so whenever the two clock readings of `handleSubmit`
coincide (`t1 = t2 = t`), the stored row satisfies
`end_date = created_at + d` days exactly. -/
theorem end_date_exact_for_single_clock_reading (w ti de : String) (im : Option String)
    (m : ℚ) (s : String) (d : Nat) (t : Int) (sid : Nat) :
    (submittedIdea w ti de im m s d t t sid).end_date
      = (submittedIdea w ti de im m s d t t sid).created_at + d * dayMs := by
  simp [submittedIdea]

/-- Claim C9 counterexample: a successful invest call with display amount
1/2000000 (which passes both guards) hands the payment builder
`Math.floor(amount * 1e6) = 0` micro-units, not the exact scaling
`amount * 1e6 = 1/2`. -/
theorem micro_units_not_exact_scaling :
    (∃ s, (handleInvest "inv" (mkIdea 1 10 1000 Status.open' 0) (JsNum.num (1 / 2000000))
        ⟨[mkIdea 1 10 1000 Status.open' 0], []⟩ (LedgerOutcome.success 7) true 0).outcome
        = InvestOutcome.success s) ∧
    (handleInvest "inv" (mkIdea 1 10 1000 Status.open' 0) (JsNum.num (1 / 2000000))
        ⟨[mkIdea 1 10 1000 Status.open' 0], []⟩ (LedgerOutcome.success 7) true 0).ledgerAmount
      = some (JsNum.num 0) ∧
    jsMul (JsNum.num (1 / 2000000)) (JsNum.num 1000000) ≠ JsNum.num 0 := by
  refine ⟨⟨JsNum.num (1 / 2000000 / 10 * 100), ?_⟩, ?_, ?_⟩
  · norm_num [handleInvest, mkIdea]
  · norm_num [handleInvest, mkIdea]
  · norm_num

/-- Claim C9 amended: the amount handed to the payment builder on the ledger
path is `⌊amount * 10^6⌋` micro-units; this equals the exact scaling
`amount * 10^6` whenever the display amount is an integer multiple of
10^-6. -/
theorem ledger_amount_is_floor_of_scaled (w : String) (idea : Idea) (q : ℚ) (db : DB)
    (txid : Nat) (now : Int) (insertOk : Bool)
    (h0 : 0 < q) (h1 : q ≤ idea.money_needed) :
    (handleInvest w idea (JsNum.num q) db (LedgerOutcome.success txid) insertOk now).ledgerAmount
      = some (JsNum.num ⌊q * 1000000⌋) ∧
    ∀ n : ℤ, q = (n : ℚ) / 1000000 → (⌊q * 1000000⌋ : ℚ) = q * 1000000 := by
  have hg1 : ¬ q ≤ 0 := not_le.mpr h0
  have hg2 : ¬ idea.money_needed < q := not_lt.mpr h1
  constructor
  · cases insertOk <;> simp [handleInvest, decide_eq_false hg1, decide_eq_false hg2]
  · rintro n rfl
    rw [div_mul_cancel₀ _ (by norm_num : (1000000 : ℚ) ≠ 0)]
    simp

theorem ledger_amount_is_floor_of_scaled_witness :
    ((0 : ℚ) < 2 ∧ (2 : ℚ) ≤ (mkIdea 1 100 1000 Status.open' 0).money_needed) ∧
    ((handleInvest "inv" (mkIdea 1 100 1000 Status.open' 0) (JsNum.num 2)
        ⟨[mkIdea 1 100 1000 Status.open' 0], []⟩ (LedgerOutcome.success 7) true 0).ledgerAmount
      = some (JsNum.num ⌊(2 : ℚ) * 1000000⌋) ∧
    ∀ n : ℤ, (2 : ℚ) = (n : ℚ) / 1000000 → (⌊(2 : ℚ) * 1000000⌋ : ℚ) = (2 : ℚ) * 1000000) :=
  ⟨⟨by norm_num, by norm_num [mkIdea]⟩,
    ledger_amount_is_floor_of_scaled "inv" (mkIdea 1 100 1000 Status.open' 0) 2
      ⟨[mkIdea 1 100 1000 Status.open' 0], []⟩ 7 0 true (by norm_num) (by norm_num [mkIdea])⟩

end SOSA
